import Mathlib

/-!
Shallow embedding of the nitrogen-tank movement ledger (`db.py`) of the
repository, together with theorems checking the natural-language
specification against it.

Modelling conventions:
* Calendar dates are modelled as natural numbers (days); the current date
  is passed explicitly as the `today` parameter where the source calls
  `date.today()`.
* Machine state is a `DB` value holding the `tanks` and `movements` tables
  and the autoincrement counter for `Movement.id`.  Tank `status` and
  `Movement.movement_type` are kept as strings (`"in"`/`"out"`,
  `"dispatch"`/`"receipt"`), as in the source.
* `create_movement` raises `ValueError` with seven distinct messages; each
  raise site becomes one constructor of `DBError` (the message text is kept
  in `errorMessage`).  The session/transaction semantics is made explicit:
  `create_movement_session` returns, on error, the exception together with
  the uncommitted session state, and `record_movement` commits the new
  state on success and rolls the session back (returns the pre-call state)
  on error, as `session.close()` without `commit()` does.
* Python truthiness on optional strings (`if serial:`, `project or None`)
  is `optTruthy`/`orNone`; `str.strip()` is `pyStrip`;
  `re.fullmatch(r"\d{5}", s)` is `is5Digits` (ASCII digits; the source's
  `\d` also admits non-ASCII decimal digits, which no claim exercises).
* `Movement.created_at`/`updated_at` timestamps are omitted: no claim
  mentions them and no business rule reads them.
-/

namespace Nitrogeno

/-- Python truthiness of an optional string: `None` and `""` are falsy. -/
def optTruthy : Option String → Bool
  | none => false
  | some s => !(s == "")

/-- Python `x or None` on an optional string: falsy values become `None`. -/
def orNone (x : Option String) : Option String :=
  if optTruthy x then x else none

/-- Characters removed by Python `str.strip()` (ASCII whitespace). -/
def isPySpace (c : Char) : Bool :=
  c == ' ' || c == '\t' || c == '\n' || c == '\r' || c == '\x0b' || c == '\x0c'

/-- Python `str.strip()`: drop leading and trailing whitespace. -/
def pyStrip (s : String) : String :=
  (((s.toList.dropWhile isPySpace).reverse.dropWhile isPySpace).reverse).asString

/-- Test for `re.fullmatch(r"\d{5}", s)`: exactly five decimal digits. -/
def is5Digits (s : String) : Bool :=
  s.toList.length == 5 && s.toList.all Char.isDigit

/-- Embedding of `_validate_smt_required_5_digits`: returns the stripped
SMT string on success, `none` where the source raises `ValueError`. -/
def validate_smt_required_5_digits (smt_number : Option String) : Option String :=
  let smt := pyStrip (smt_number.getD "")
  if is5Digits smt then some smt else none

/-- Row of the `tanks` table. -/
structure Tank where
  serial : String
  status : String
  last_movement_date : Option Nat
deriving DecidableEq, Repr

/-- Row of the `movements` table (timestamps omitted, see module header). -/
structure Movement where
  id : Nat
  serial : String
  movement_type : String
  movement_date : Nat
  project : Option String
  responsible_engineer : Option String
  responsible_contractor : Option String
  smt_number : Option String
deriving DecidableEq, Repr

/-- The persistent store: both tables plus the `Movement.id` autoincrement
counter. -/
structure DB where
  tanks : List Tank
  movements : List Movement
  next_id : Nat
deriving DecidableEq, Repr

/-- The empty store (no tanks, no movements). -/
def emptyDB : DB := ⟨[], [], 0⟩

/-- Embedding of `session.get(Tank, serial)`. -/
def findTank (db : DB) (serial : String) : Option Tank :=
  db.tanks.find? (fun t => t.serial == serial)

/-- The movements of one tank (the `filter(Movement.serial == serial)` query). -/
def movementsFor (movs : List Movement) (serial : String) : List Movement :=
  movs.filter (fun m => m.serial == serial)

/-- Strictly more recent in the `movement_date` descending, `id` descending
ordering used by every query of the source. -/
def moreRecent (a b : Movement) : Bool :=
  b.movement_date < a.movement_date ||
    (a.movement_date == b.movement_date && b.id < a.id)

/-- One step of taking the maximum of the `(movement_date, id)` ordering. -/
def pickMax (acc : Option Movement) (m : Movement) : Option Movement :=
  match acc with
  | none => some m
  | some b => if moreRecent m b then some m else some b

/-- Embedding of `query.order_by(date.desc(), id.desc()).first()` restricted
to one serial: the most recent movement of that tank, or `none`. -/
def lastMovement (movs : List Movement) (serial : String) : Option Movement :=
  (movementsFor movs serial).foldl pickMax none

/-- Set the `status` column of the tank row with the given serial. -/
def setTankStatus (db : DB) (serial : String) (ns : String) : DB :=
  { db with tanks := db.tanks.map (fun t => if t.serial == serial then { t with status := ns } else t) }

/-- Set the `last_movement_date` column of the tank row with the given serial. -/
def setTankLastDate (db : DB) (serial : String) (d : Nat) : DB :=
  { db with tanks := db.tanks.map (fun t => if t.serial == serial then { t with last_movement_date := some d } else t) }

/-- Every distinct `raise ValueError` site of `create_movement`. -/
inductive DBError where
  | tankNotFound (serial : String)
  | futureDate
  | invalidSmt
  | alreadyOut
  | dispatchMissingFields
  | alreadyIn
  | invalidMovementType
deriving DecidableEq, Repr

/-- The `ValueError` message text of each raise site. -/
def errorMessage : DBError → String
  | .tankNotFound serial => "El tanque " ++ serial ++ " no existe"
  | .futureDate => "La fecha del movimiento no puede estar en el futuro"
  | .invalidSmt => "El Número de SMT es obligatorio y debe tener exactamente 5 dígitos."
  | .alreadyOut => "El tanque ya está fuera: no se puede despachar de nuevo"
  | .dispatchMissingFields =>
      "Despacho requiere Proyecto, Ingeniero responsable y Contratista responsable"
  | .alreadyIn => "El tanque ya está en almacén: no se puede recepcionar"
  | .invalidMovementType => "Tipo de movimiento inválido"

/-- The three error kinds of the specification (§7). -/
inductive ErrorKind where
  | NotFoundError
  | ValidationError
  | ConflictError
deriving DecidableEq, Repr

/-- Classification of each raise site into the specification's error kinds. -/
def DBError.kind : DBError → ErrorKind
  | .tankNotFound _ => .NotFoundError
  | .futureDate => .ValidationError
  | .invalidSmt => .ValidationError
  | .alreadyOut => .ConflictError
  | .dispatchMissingFields => .ValidationError
  | .alreadyIn => .ConflictError
  | .invalidMovementType => .ValidationError

/-- Tail of `create_movement` after all checks passed: set
`tank.last_movement_date`, build the `Movement` row (optional strings
normalised by `or None`), insert it and return it. -/
def addMovement (db : DB) (serial movement_type : String) (movement_date : Nat)
    (project engineer contractor : Option String) (smt_str : String) :
    DB × Movement :=
  let db1 := setTankLastDate db serial movement_date
  let mv : Movement :=
    { id := db1.next_id
      serial := serial
      movement_type := movement_type
      movement_date := movement_date
      project := orNone project
      responsible_engineer := orNone engineer
      responsible_contractor := orNone contractor
      smt_number := some smt_str }
  ({ db1 with movements := db1.movements ++ [mv], next_id := db1.next_id + 1 }, mv)

/-- Embedding of the body of `create_movement` as executed inside the
session: checks in source order, mutations in source order.  On error the
result carries the exception and the session state at the moment of the
raise (uncommitted). -/
def create_movement_session (db : DB) (today : Nat) (serial movement_type : String)
    (movement_date : Nat) (project engineer contractor smt_number : Option String) :
    Except (DBError × DB) (DB × Movement) :=
  match findTank db serial with
  | none => .error (.tankNotFound serial, db)
  | some tank =>
    if today < movement_date then .error (.futureDate, db)
    else
      match validate_smt_required_5_digits smt_number with
      | none => .error (.invalidSmt, db)
      | some smt_str =>
        if movement_type == "dispatch" then
          if tank.status == "out" then .error (.alreadyOut, db)
          else if !optTruthy project || !optTruthy engineer || !optTruthy contractor then
            .error (.dispatchMissingFields, db)
          else
            .ok (addMovement (setTankStatus db serial "out") serial movement_type
                  movement_date project engineer contractor smt_str)
        else if movement_type == "receipt" then
          if tank.status == "in" then .error (.alreadyIn, db)
          else
            .ok (addMovement (setTankStatus db serial "in") serial movement_type
                  movement_date project engineer contractor smt_str)
        else .error (.invalidMovementType, db)

/-- Embedding of `create_movement` as seen by the caller: on success the
session state is committed; on error `session.close()` rolls the
uncommitted session back, so the pre-call state is kept. -/
def record_movement (db : DB) (today : Nat) (serial movement_type : String)
    (movement_date : Nat) (project engineer contractor smt_number : Option String) :
    DB × Except DBError Movement :=
  match create_movement_session db today serial movement_type movement_date
        project engineer contractor smt_number with
  | .ok (db1, mv) => (db1, .ok mv)
  | .error (e, _) => (db, .error e)

/-- Pool of rows of `get_movements` before ordering: `if serial:` filters
only when the argument is truthy (neither `None` nor `""`). -/
def get_movementsPool (db : DB) (serial : Option String) : List Movement :=
  if optTruthy serial then movementsFor db.movements (serial.getD "") else db.movements

/-- The `movement_date` descending, `id` descending ordering as a relation
(used to present query results sorted). -/
def moveOrder (a b : Movement) : Prop :=
  b.movement_date < a.movement_date ∨ (a.movement_date = b.movement_date ∧ b.id ≤ a.id)

instance : DecidableRel moveOrder := fun a b => by
  unfold moveOrder; exact inferInstance

instance : IsTotal Movement moveOrder := by
  constructor
  intro a b
  rcases Nat.lt_trichotomy a.movement_date b.movement_date with h | h | h
  · exact Or.inr (Or.inl h)
  · rcases Nat.le_total b.id a.id with h2 | h2
    · exact Or.inl (Or.inr ⟨h, h2⟩)
    · exact Or.inr (Or.inr ⟨h.symm, h2⟩)
  · exact Or.inl (Or.inl h)

instance : IsTrans Movement moveOrder := by
  constructor
  intro a b c hab hbc
  rcases hab with h1 | ⟨e1, l1⟩
  · rcases hbc with h2 | ⟨e2, _⟩
    · exact Or.inl (h2.trans h1)
    · exact Or.inl (e2 ▸ h1)
  · rcases hbc with h2 | ⟨e2, l2⟩
    · exact Or.inl (e1 ▸ h2)
    · exact Or.inr ⟨e1.trans e2, l2.trans l1⟩

/-- Embedding of `get_movements`: optional serial filter, then the
`(movement_date desc, id desc)` ordering. -/
def get_movements (db : DB) (serial : Option String) : List Movement :=
  List.insertionSort moveOrder (get_movementsPool db serial)

/-- Embedding of `last.responsible_engineer or "(sin ingeniero)"`. -/
def engLabel (m : Movement) : String :=
  match m.responsible_engineer with
  | some s => if s == "" then "(sin ingeniero)" else s
  | none => "(sin ingeniero)"

/-- Engineer labels contributed by the currently-out tanks, in tank-table
order: one label per out tank whose most recent movement is a dispatch;
out tanks whose most recent movement is missing or not a dispatch are
skipped (`if last and last.movement_type == "dispatch"`). -/
def outLabels (db : DB) : List String :=
  (db.tanks.filter (fun t => t.status == "out")).filterMap (fun t =>
    match lastMovement db.movements t.serial with
    | some m => if m.movement_type == "dispatch" then some (engLabel m) else none
    | none => none)

/-- Embedding of `counts[eng] = counts.get(eng, 0) + 1` on an
insertion-ordered association list (a Python dict). -/
def bumpCount : List (String × Nat) → String → List (String × Nat)
  | [], k => [(k, 1)]
  | (k', n) :: rest, k =>
    if k' == k then (k', n + 1) :: rest else (k', n) :: bumpCount rest k

/-- Lookup of a key's count in the association-list dict (0 when absent). -/
def countIn (l : List (String × Nat)) (k : String) : Nat :=
  match l.find? (fun p => p.1 == k) with
  | some p => p.2
  | none => 0

/-- Embedding of the sort key `(-count, engineer)`: count descending, then
engineer name ascending. -/
def summaryOrder (a b : String × Nat) : Prop :=
  b.2 < a.2 ∨ (a.2 = b.2 ∧ a.1 ≤ b.1)

instance : DecidableRel summaryOrder := fun a b => by
  unfold summaryOrder; exact inferInstance

instance : IsTotal (String × Nat) summaryOrder := by
  constructor
  intro a b
  rcases Nat.lt_trichotomy a.2 b.2 with h | h | h
  · exact Or.inr (Or.inl h)
  · rcases le_total a.1 b.1 with h2 | h2
    · exact Or.inl (Or.inr ⟨h, h2⟩)
    · exact Or.inr (Or.inr ⟨h.symm, h2⟩)
  · exact Or.inl (Or.inl h)

instance : IsTrans (String × Nat) summaryOrder := by
  constructor
  intro a b c hab hbc
  rcases hab with h1 | ⟨e1, l1⟩
  · rcases hbc with h2 | ⟨e2, _⟩
    · exact Or.inl (h2.trans h1)
    · exact Or.inl (e2 ▸ h1)
  · rcases hbc with h2 | ⟨e2, l2⟩
    · exact Or.inl (e1 ▸ h2)
    · exact Or.inr ⟨e1.trans e2, l1.trans l2⟩

/-- Embedding of `summary_current_out_by_engineer`: count the out tanks per
engineer of their latest dispatch, then sort by `(-count, engineer)`. -/
def summary_current_out_by_engineer (db : DB) : List (String × Nat) :=
  List.insertionSort summaryOrder ((outLabels db).foldl bumpCount [])

/-- Specification-side count (from the claim's words, to compare with
`summary_current_out_by_engineer`): the number of tanks whose status is
`out` and whose most recent movement is a dispatch carrying engineer
label `e`. -/
def outDispatchLabelCount (db : DB) (e : String) : Nat :=
  db.tanks.countP (fun t =>
    t.status == "out" &&
      match lastMovement db.movements t.serial with
      | some m => m.movement_type == "dispatch" && engLabel m == e
      | none => false)

/-- Per-tank body of the loop of `recompute_tank_states_from_history`: if
the tank has a movement, set its status and last date from the most recent
one; otherwise leave it untouched. -/
def repairTank (movs : List Movement) (t : Tank) : Tank :=
  match lastMovement movs t.serial with
  | none => t
  | some m =>
    { t with
        status := if m.movement_type == "dispatch" then "out" else "in",
        last_movement_date := some m.movement_date }

/-- Condition under which the loop of `recompute_tank_states_from_history`
counts a tank as updated (`t.status != new_status or t.last_movement_date
!= new_date`; tanks with no movement are skipped). -/
def needsRepair (movs : List Movement) (t : Tank) : Bool :=
  match lastMovement movs t.serial with
  | none => false
  | some m =>
    t.status != (if m.movement_type == "dispatch" then "out" else "in") ||
      t.last_movement_date != some m.movement_date

/-- Embedding of `recompute_tank_states_from_history`: the loop repairs the
tanks in place (the per-iteration queries read only the movements table,
which the loop never writes) and counts the tanks whose stored pair
differed from the recomputed one. -/
def recompute_tank_states_from_history (db : DB) : DB × Nat :=
  ({ db with tanks := db.tanks.map (repairTank db.movements) },
   db.tanks.countP (needsRepair db.movements))

/-- Embedding of `seed_tanks`: add a fresh `in` tank for each serial not
already present. -/
def seed_tanks (db : DB) (serials : List String) : DB :=
  let step := fun (d : DB) (s : String) =>
    if (findTank d s).isSome then d
    else { d with tanks := d.tanks ++ [{ serial := s, status := "in", last_movement_date := none }] }
  serials.foldl step db

/-- The public state-changing operations of the module. -/
inductive Op where
  | seed (serials : List String)
  | record (today : Nat) (serial movement_type : String) (movement_date : Nat)
      (project engineer contractor smt_number : Option String)
  | recompute
deriving DecidableEq, Repr

/-- Effect of one public operation on the store. -/
def applyOp (db : DB) : Op → DB
  | .seed ss => seed_tanks db ss
  | .record today serial mtype mdate p e c smt =>
    (record_movement db today serial mtype mdate p e c smt).1
  | .recompute => (recompute_tank_states_from_history db).1

/-- The state after a sequence of public operations. -/
def runOps (db : DB) (ops : List Op) : DB := ops.foldl applyOp db

/-- One tank satisfies the status invariant: status is `out` iff its most
recent movement is a dispatch, `in` otherwise or with no movement. -/
def tankConsistent (movs : List Movement) (t : Tank) : Bool :=
  match lastMovement movs t.serial with
  | some m => t.status == (if m.movement_type == "dispatch" then "out" else "in")
  | none => t.status == "in"

/-- The claimed invariant, over the whole tank table. -/
def statusInvariant (db : DB) : Bool :=
  db.tanks.all (tankConsistent db.movements)

/-- A movement date that does not precede any movement already recorded for
that serial (no backdating). -/
def noBackdate (db : DB) (serial : String) (mdate : Nat) : Bool :=
  (movementsFor db.movements serial).all (fun m => m.movement_date ≤ mdate)

/-- An operation is admissible in a state when, if it records a movement,
the movement's date does not backdate that tank's history. -/
def admissibleOp (db : DB) : Op → Bool
  | .record _ serial _ mdate _ _ _ _ => noBackdate db serial mdate
  | _ => true

/-- A run is admissible from a state when each operation is admissible in
the state in which it executes. -/
def admissibleRun (db : DB) : List Op → Bool
  | [] => true
  | op :: rest => admissibleOp db op && admissibleRun (applyOp db op) rest

/-- Internal well-formedness: every stored movement id is below the
autoincrement counter, and every movement references an existing tank. -/
def wellFormed (db : DB) : Bool :=
  db.movements.all (fun m => decide (m.id < db.next_id)) &&
    db.movements.all (fun m => (findTank db m.serial).isSome)

/-- The inductive invariant carried along runs: internal well-formedness
together with the claimed status invariant. -/
def ledgerInv (db : DB) : Bool := wellFormed db && statusInvariant db

/-- Looking a tank up in a mapped tank table, when the map preserves
serials, is looking it up first and mapping the result. -/
theorem findTank_map_pres (db : DB) (f : Tank → Tank)
    (hf : ∀ t, (f t).serial = t.serial) (s : String) :
    findTank { db with tanks := db.tanks.map f } s = (findTank db s).map f := by
  unfold findTank
  simp only [List.find?_map]
  have hp : ((fun t : Tank => t.serial == s) ∘ f) = (fun t : Tank => t.serial == s) := by
    funext t
    simp [Function.comp, hf]
  rw [hp]

/-- A tank found under a serial carries that serial. -/
theorem findTank_serial (db : DB) (s : String) (t : Tank)
    (ht : findTank db s = some t) : t.serial = s := by
  unfold findTank at ht
  simpa using List.find?_some ht

/-- Effect on `findTank` of the two tank-column writes of
`create_movement`. -/
theorem findTank_setStatusDate (db : DB) (serial ns : String) (d : Nat) (t : Tank)
    (ht : findTank db serial = some t) :
    findTank (setTankLastDate (setTankStatus db serial ns) serial d) serial =
      some { t with status := ns, last_movement_date := some d } := by
  have hts : t.serial = serial := findTank_serial db serial t ht
  have hf1 : ∀ t' : Tank,
      ((fun t' => if t'.serial == serial then { t' with status := ns } else t') t').serial
        = t'.serial := by
    intro t'
    dsimp only
    split <;> rfl
  have hf2 : ∀ t' : Tank,
      ((fun t' => if t'.serial == serial then { t' with last_movement_date := some d } else t') t').serial
        = t'.serial := by
    intro t'
    dsimp only
    split <;> rfl
  unfold setTankStatus setTankLastDate
  rw [findTank_map_pres _ _ hf2, findTank_map_pres _ _ hf1, ht]
  simp [hts]

/-- C2: for every input to `record_movement` that makes the call fail with
any error, both the `Tank` table and the `Movement` table are unchanged
from their pre-call state.  The returned state is the pre-call state, and
moreover the session state at the moment of every raise already equals the
pre-call state (every raise precedes the first mutation). -/
theorem C2_record_movement_atomic (db : DB) (today : Nat) (serial movement_type : String)
    (movement_date : Nat) (project engineer contractor smt_number : Option String)
    (e : DBError)
    (h : (record_movement db today serial movement_type movement_date
        project engineer contractor smt_number).2 = .error e) :
    (record_movement db today serial movement_type movement_date
        project engineer contractor smt_number).1 = db ∧
    ∀ d, create_movement_session db today serial movement_type movement_date
        project engineer contractor smt_number = .error (e, d) → d = db := by
  constructor
  · unfold record_movement at h ⊢
    split at h
    · simp_all
    · rfl
  · intro d hd
    unfold create_movement_session at hd
    repeat' split at hd
    all_goals simp_all

/-- Witness for C2 at a concrete failing input (unknown serial on the
empty store). -/
theorem C2_record_movement_atomic_witness :
    (record_movement emptyDB 10 "T1" "receipt" 5 none none none none).2 =
      .error (.tankNotFound "T1") ∧
    (record_movement emptyDB 10 "T1" "receipt" 5 none none none none).1 = emptyDB :=
  ⟨rfl,
   (C2_record_movement_atomic emptyDB 10 "T1" "receipt" 5 none none none none
      (.tankNotFound "T1") rfl).1⟩

/-- C3: for an existing tank with a valid date and SMT number, a DISPATCH
fails with a ConflictError-kind error exactly when the tank's status is
`out`, a RECEIPT fails with a ConflictError-kind error exactly when the
status is `in`, and on success a DISPATCH leaves the tank `out` and a
RECEIPT leaves it `in` (with `last_movement_date` set). -/
theorem C3_conflict_rules (db : DB) (today : Nat) (serial : String) (movement_date : Nat)
    (project engineer contractor smt_number : Option String) (t : Tank)
    (ht : findTank db serial = some t) (hdate : movement_date ≤ today)
    (hsmt : (validate_smt_required_5_digits smt_number).isSome = true) :
    ((∃ err, (record_movement db today serial "dispatch" movement_date
        project engineer contractor smt_number).2 = .error err ∧
        err.kind = .ConflictError) ↔ t.status = "out") ∧
    ((∃ err, (record_movement db today serial "receipt" movement_date
        project engineer contractor smt_number).2 = .error err ∧
        err.kind = .ConflictError) ↔ t.status = "in") ∧
    (∀ m, (record_movement db today serial "dispatch" movement_date
        project engineer contractor smt_number).2 = .ok m →
      findTank (record_movement db today serial "dispatch" movement_date
        project engineer contractor smt_number).1 serial =
        some { t with status := "out", last_movement_date := some movement_date }) ∧
    (∀ m, (record_movement db today serial "receipt" movement_date
        project engineer contractor smt_number).2 = .ok m →
      findTank (record_movement db today serial "receipt" movement_date
        project engineer contractor smt_number).1 serial =
        some { t with status := "in", last_movement_date := some movement_date }) := by
  have hn : ¬ today < movement_date := by omega
  obtain ⟨smt0, hs0⟩ := Option.isSome_iff_exists.mp hsmt
  refine ⟨?_, ?_, ?_, ?_⟩
  · by_cases hout : t.status = "out"
    · simp [record_movement, create_movement_session, ht, hn, hs0, hout, DBError.kind]
    · by_cases hfield : (!optTruthy project || !optTruthy engineer || !optTruthy contractor) = true
      · simp [record_movement, create_movement_session, ht, hn, hs0, hout, hfield, DBError.kind]
      · simp [record_movement, create_movement_session, ht, hn, hs0, hout, hfield, DBError.kind]
  · by_cases hin : t.status = "in"
    · simp [record_movement, create_movement_session, ht, hn, hs0, hin, DBError.kind]
    · simp [record_movement, create_movement_session, ht, hn, hs0, hin, DBError.kind]
  · intro m hm
    by_cases hout : t.status = "out"
    · simp [record_movement, create_movement_session, ht, hn, hs0, hout] at hm
    · by_cases hfield : (!optTruthy project || !optTruthy engineer || !optTruthy contractor) = true
      · simp [record_movement, create_movement_session, ht, hn, hs0, hout, hfield] at hm
      · simp only [record_movement, create_movement_session, ht, hn, hs0] at hm ⊢
        simp [hout, hfield, addMovement] at hm ⊢
        exact findTank_setStatusDate db serial "out" movement_date t ht
  · intro m hm
    by_cases hin : t.status = "in"
    · simp [record_movement, create_movement_session, ht, hn, hs0, hin] at hm
    · simp only [record_movement, create_movement_session, ht, hn, hs0] at hm ⊢
      simp [hin, addMovement] at hm ⊢
      exact findTank_setStatusDate db serial "in" movement_date t ht

/-- Witness for C3: on a freshly seeded (hence `in`) tank, a dispatch with
valid date and SMT does not fail with a ConflictError-kind error. -/
theorem C3_conflict_rules_witness :
    ¬ ∃ err, (record_movement (seed_tanks emptyDB ["T1"]) 10 "T1" "dispatch" 5
        (some "P") (some "J") (some "A") (some "00001")).2 = .error err ∧
      err.kind = .ConflictError := by
  intro hex
  have h := (C3_conflict_rules (seed_tanks emptyDB ["T1"]) 10 "T1" 5
      (some "P") (some "J") (some "A") (some "00001")
      ⟨"T1", "in", none⟩ (by decide) (by decide) (by decide)).1
  exact absurd (h.mp hex) (by decide)

/-- C4: with an existing tank and a valid date, any movement type whose
SMT number fails the trimmed five-digit check is rejected with the
ValidationError-kind SMT error; `"1234"`, `"abcde"`, `"123456"`, `""` and
`None` all fail the check, `"00123"` passes (and is stored trimmed). -/
theorem C4_smt_validation (db : DB) (today : Nat) (serial movement_type : String)
    (movement_date : Nat) (project engineer contractor smt_number : Option String)
    (t : Tank) (ht : findTank db serial = some t) (hdate : movement_date ≤ today)
    (hbad : validate_smt_required_5_digits smt_number = none) :
    (record_movement db today serial movement_type movement_date
        project engineer contractor smt_number).2 = .error .invalidSmt ∧
    DBError.invalidSmt.kind = .ValidationError ∧
    validate_smt_required_5_digits (some "1234") = none ∧
    validate_smt_required_5_digits (some "abcde") = none ∧
    validate_smt_required_5_digits (some "123456") = none ∧
    validate_smt_required_5_digits (some "") = none ∧
    validate_smt_required_5_digits none = none ∧
    validate_smt_required_5_digits (some "00123") = some "00123" := by
  refine ⟨?_, rfl, by decide, by decide, by decide, by decide, by decide, by decide⟩
  have hn : ¬ today < movement_date := by omega
  simp [record_movement, create_movement_session, ht, hn, hbad]

/-- Witness for C4 at a concrete call (receipt with SMT `"1234"` on a
seeded tank). -/
theorem C4_smt_validation_witness :
    (record_movement (seed_tanks emptyDB ["T1"]) 10 "T1" "receipt" 5
        none none none (some "1234")).2 = .error .invalidSmt :=
  (C4_smt_validation (seed_tanks emptyDB ["T1"]) 10 "T1" "receipt" 5
      none none none (some "1234") ⟨"T1", "in", none⟩
      (by decide) (by decide) (by decide)).1

/-- C5: every error of `record_movement` carries one of three
distinguishable kinds, and the kinds arise exactly as the specification
says: NotFoundError iff the serial matches no tank; ConflictError only
for a dispatch of an `out` tank or a receipt of an `in` tank;
ValidationError only for a future date, a malformed SMT, missing dispatch
fields, or an invalid movement type. -/
theorem C5_error_kinds (db : DB) (today : Nat) (serial movement_type : String)
    (movement_date : Nat) (project engineer contractor smt_number : Option String)
    (err : DBError)
    (h : (record_movement db today serial movement_type movement_date
        project engineer contractor smt_number).2 = .error err) :
    (err.kind = .NotFoundError ↔ findTank db serial = none) ∧
    (err.kind = .ConflictError → ∃ t, findTank db serial = some t ∧
      ((movement_type = "dispatch" ∧ t.status = "out" ∧ err = .alreadyOut) ∨
       (movement_type = "receipt" ∧ t.status = "in" ∧ err = .alreadyIn))) ∧
    (err.kind = .ValidationError →
      (today < movement_date ∧ err = .futureDate) ∨
      (validate_smt_required_5_digits smt_number = none ∧ err = .invalidSmt) ∨
      (movement_type = "dispatch" ∧
        (optTruthy project = false ∨ optTruthy engineer = false ∨ optTruthy contractor = false) ∧
        err = .dispatchMissingFields) ∨
      (movement_type ≠ "dispatch" ∧ movement_type ≠ "receipt" ∧ err = .invalidMovementType)) := by
  unfold record_movement at h
  split at h
  · simp_all
  case h_2 e d heq =>
    simp only [Except.error.injEq] at h
    subst h
    unfold create_movement_session at heq
    repeat' split at heq
    all_goals first
      | (simp only [Except.error.injEq, Prod.mk.injEq] at heq
         obtain ⟨h1, h2⟩ := heq
         subst h1
         simp_all [DBError.kind])
      | simp_all
    all_goals tauto

/-- Witness for C5 at a concrete failing input: the error raised on the
empty store is of NotFoundError kind, so the tank indeed does not exist. -/
theorem C5_error_kinds_witness : findTank emptyDB "T1" = none :=
  (C5_error_kinds emptyDB 10 "T1" "receipt" 5 none none none none
      (.tankNotFound "T1") rfl).1.mp (by decide)

/-- C8 counterexample: a successful RECEIPT whose caller supplied the
empty string as `project` stores `None`, not the empty string: the claim
that the three optional fields are stored exactly as supplied, including
empty strings, is false. -/
theorem C8_counterexample :
    Except.map Movement.project
      ((record_movement
        ((record_movement (seed_tanks emptyDB ["T1"]) 10 "T1" "dispatch" 10
          (some "P") (some "J") (some "A") (some "00001")).1)
        10 "T1" "receipt" 5 (some "") none none (some "00002")).2) = .ok none ∧
    (none : Option String) ≠ some "" := by
  constructor
  · rfl
  · simp

/-- C8 amended: for every successful RECEIPT, `project`,
`responsible_engineer` and `responsible_contractor` are stored through
`or None`: a non-empty string is stored verbatim, while the empty string
and null are both stored as null. -/
theorem C8_receipt_optional_fields (db : DB) (today : Nat) (serial : String)
    (movement_date : Nat) (project engineer contractor smt_number : Option String)
    (m : Movement)
    (h : (record_movement db today serial "receipt" movement_date
        project engineer contractor smt_number).2 = .ok m) :
    m.project = orNone project ∧
    m.responsible_engineer = orNone engineer ∧
    m.responsible_contractor = orNone contractor ∧
    (∀ s, s ≠ "" → orNone (some s) = some s) ∧
    orNone none = none ∧
    orNone (some "") = none := by
  have key : m.project = orNone project ∧ m.responsible_engineer = orNone engineer ∧
      m.responsible_contractor = orNone contractor := by
    unfold record_movement at h
    split at h
    case h_1 db1 mv heq =>
      simp only at h
      cases h
      unfold create_movement_session at heq
      repeat' split at heq
      all_goals simp_all [addMovement]
      all_goals obtain ⟨h1, h2⟩ := heq
      all_goals subst h2
      all_goals simp
    case h_2 =>
      simp_all
  exact ⟨key.1, key.2.1, key.2.2, fun s hs => by simp [orNone, optTruthy, hs], rfl, rfl⟩

/-- Witness for C8 amended at a concrete successful receipt call with an
empty-string project. -/
theorem C8_receipt_optional_fields_witness :
    (Movement.mk 1 "T1" "receipt" 5 none none none (some "00002")).project =
      orNone (some "") ∧
    (Movement.mk 1 "T1" "receipt" 5 none none none (some "00002")).responsible_engineer =
      orNone none ∧
    (Movement.mk 1 "T1" "receipt" 5 none none none (some "00002")).responsible_contractor =
      orNone none ∧
    (∀ s, s ≠ "" → orNone (some s) = some s) ∧
    orNone none = none ∧
    orNone (some "") = none :=
  C8_receipt_optional_fields
    ((record_movement (seed_tanks emptyDB ["T1"]) 10 "T1" "dispatch" 10
        (some "P") (some "J") (some "A") (some "00001")).1)
    10 "T1" 5 (some "") none none (some "00002")
    (Movement.mk 1 "T1" "receipt" 5 none none none (some "00002")) rfl

/-- C9: passing the empty string as the serial to `get_movements` is the
same as passing no serial and returns every movement of every tank, while
a non-empty serial restricts the result to that tank's movements. -/
theorem C9_empty_serial_lists_all (db : DB) (s : String) (hs : s ≠ "") :
    get_movements db (some "") = get_movements db none ∧
    (∀ m : Movement, m ∈ get_movements db (some "") ↔ m ∈ db.movements) ∧
    (∀ m ∈ get_movements db (some s), m.serial = s) := by
  refine ⟨rfl, ?_, ?_⟩
  · intro m
    unfold get_movements
    rw [(List.perm_insertionSort moveOrder (get_movementsPool db (some ""))).mem_iff]
    simp [get_movementsPool, optTruthy]
  · intro m hm
    unfold get_movements at hm
    rw [(List.perm_insertionSort moveOrder (get_movementsPool db (some s))).mem_iff] at hm
    simp only [get_movementsPool, optTruthy] at hm
    rw [if_pos (by simpa using hs)] at hm
    simpa using (List.of_mem_filter hm)

/-- Witness for C9 at a concrete store with one recorded movement. -/
theorem C9_empty_serial_lists_all_witness :
    get_movements
      ((record_movement (seed_tanks emptyDB ["T1"]) 10 "T1" "dispatch" 10
        (some "P") (some "J") (some "A") (some "00001")).1) (some "") =
    get_movements
      ((record_movement (seed_tanks emptyDB ["T1"]) 10 "T1" "dispatch" 10
        (some "P") (some "J") (some "A") (some "00001")).1) none :=
  (C9_empty_serial_lists_all
    ((record_movement (seed_tanks emptyDB ["T1"]) 10 "T1" "dispatch" 10
        (some "P") (some "J") (some "A") (some "00001")).1) "T1" (by decide)).1

/-- C10: a DISPATCH on an `in` tank succeeds when project, engineer and
contractor are whitespace-only strings — the missing-field check rejects
only null and the empty string — and the whitespace strings are stored
verbatim in the created movement. -/
theorem C10_whitespace_dispatch_fields (db : DB) (today : Nat) (serial : String)
    (movement_date : Nat) (t : Tank) (ps es cs : String)
    (smt_number : Option String) (smt0 : String)
    (ht : findTank db serial = some t) (hstat : t.status = "in")
    (hdate : movement_date ≤ today)
    (hsmt : validate_smt_required_5_digits smt_number = some smt0)
    (hp : ps ≠ "") (hpw : ps.toList.all isPySpace = true)
    (he : es ≠ "") (hew : es.toList.all isPySpace = true)
    (hc : cs ≠ "") (hcw : cs.toList.all isPySpace = true) :
    ∃ m, (record_movement db today serial "dispatch" movement_date
        (some ps) (some es) (some cs) smt_number).2 = .ok m ∧
      m.project = some ps ∧ m.responsible_engineer = some es ∧
      m.responsible_contractor = some cs := by
  have hn : ¬ today < movement_date := by omega
  have hout : ¬ t.status = "out" := by rw [hstat]; simp
  simp [record_movement, create_movement_session, ht, hn, hsmt, hout, optTruthy,
    hp, he, hc, addMovement, orNone]

/-- Witness for C10 at a concrete call with single-space fields. -/
theorem C10_whitespace_dispatch_fields_witness :
    ∃ m, (record_movement (seed_tanks emptyDB ["T1"]) 10 "T1" "dispatch" 5
        (some " ") (some " ") (some " ") (some "00001")).2 = .ok m ∧
      m.project = some " " ∧ m.responsible_engineer = some " " ∧
      m.responsible_contractor = some " " :=
  C10_whitespace_dispatch_fields (seed_tanks emptyDB ["T1"]) 10 "T1" 5
    ⟨"T1", "in", none⟩ " " " " " " (some "00001") "00001"
    (by decide) (by decide) (by decide) (by decide)
    (by decide) (by decide) (by decide) (by decide)
    (by decide) (by decide)

/-- Serial of a tank is untouched by the repair loop. -/
theorem repairTank_serial (movs : List Movement) (t : Tank) :
    (repairTank movs t).serial = t.serial := by
  unfold repairTank
  split <;> rfl

/-- A repaired tank never needs repair again. -/
theorem needsRepair_repairTank (movs : List Movement) (t : Tank) :
    needsRepair movs (repairTank movs t) = false := by
  unfold needsRepair
  rw [repairTank_serial]
  split
  case h_1 heq =>
    rfl
  case h_2 m heq =>
    unfold repairTank
    rw [heq]
    simp

/-- C7: `recompute_tank_states_from_history` is idempotent: the run after a
run reports zero updated tanks, because a run leaves the movements table
untouched, leaves movement-less tanks untouched, and counts exactly the
tanks whose stored pair differed from the recomputed one. -/
theorem C7_recompute_idempotent (db : DB) :
    (recompute_tank_states_from_history
      (recompute_tank_states_from_history db).1).2 = 0 ∧
    (recompute_tank_states_from_history db).1.movements = db.movements ∧
    (∀ t ∈ db.tanks, lastMovement db.movements t.serial = none →
      t ∈ (recompute_tank_states_from_history db).1.tanks) ∧
    (recompute_tank_states_from_history db).2 =
      db.tanks.countP (needsRepair db.movements) := by
  refine ⟨?_, rfl, ?_, rfl⟩
  · unfold recompute_tank_states_from_history
    simp only [List.countP_map]
    apply List.countP_eq_zero.mpr
    intro t ht
    simp [Function.comp, needsRepair_repairTank]
  · intro t ht hnone
    unfold recompute_tank_states_from_history
    simp only []
    apply List.mem_map.mpr
    refine ⟨t, ht, ?_⟩
    unfold repairTank
    rw [hnone]

/-- Witness for C7 at a concrete store: one tank with a movement, one
without; the run after a run updates nothing and the movement-less tank
is untouched. -/
theorem C7_recompute_idempotent_witness :
    (recompute_tank_states_from_history
      (recompute_tank_states_from_history
        ((record_movement (seed_tanks emptyDB ["T1", "T2"]) 10 "T1" "dispatch" 10
          (some "P") (some "J") (some "A") (some "00001")).1)).1).2 = 0 ∧
    Tank.mk "T2" "in" none ∈ (recompute_tank_states_from_history
      ((record_movement (seed_tanks emptyDB ["T1", "T2"]) 10 "T1" "dispatch" 10
          (some "P") (some "J") (some "A") (some "00001")).1)).1.tanks :=
  ⟨(C7_recompute_idempotent
      ((record_movement (seed_tanks emptyDB ["T1", "T2"]) 10 "T1" "dispatch" 10
        (some "P") (some "J") (some "A") (some "00001")).1)).1,
   (C7_recompute_idempotent
      ((record_movement (seed_tanks emptyDB ["T1", "T2"]) 10 "T1" "dispatch" 10
        (some "P") (some "J") (some "A") (some "00001")).1)).2.2.1
     (Tank.mk "T2" "in" none) (by decide) (by decide)⟩

/-- Bumping a key increments its count in the dict. -/
theorem countIn_bump_self (l : List (String × Nat)) (k : String) :
    countIn (bumpCount l k) k = countIn l k + 1 := by
  induction l with
  | nil => simp [bumpCount, countIn]
  | cons p rest ih =>
    obtain ⟨k2, n⟩ := p
    by_cases h : k2 = k
    · subst h
      simp [bumpCount, countIn]
    · simp only [bumpCount, beq_iff_eq, h, if_false]
      simp only [countIn, List.find?]
      have hb : (k2 == k) = false := by simpa using h
      rw [hb]
      exact ih

/-- Bumping a key leaves the other counts of the dict unchanged. -/
theorem countIn_bump_ne (l : List (String × Nat)) (k k2 : String) (h : k2 ≠ k) :
    countIn (bumpCount l k) k2 = countIn l k2 := by
  have hb : (k == k2) = false := by simpa using fun hh => h hh.symm
  induction l with
  | nil => simp [bumpCount, countIn, List.find?, hb]
  | cons p rest ih =>
    obtain ⟨k0, n⟩ := p
    by_cases h0 : k0 = k
    · subst h0
      simp only [bumpCount, beq_self_eq_true, if_true]
      simp only [countIn, List.find?, hb]
    · simp only [bumpCount, beq_iff_eq, h0, if_false]
      simp only [countIn, List.find?]
      cases hb0 : (k0 == k2) <;> simp_all [countIn]

/-- Folding the labels into the dict accumulates exactly the occurrence
counts. -/
theorem countIn_foldl (labels : List String) (acc : List (String × Nat)) (k : String) :
    countIn (labels.foldl bumpCount acc) k = countIn acc k + labels.count k := by
  induction labels generalizing acc with
  | nil => simp
  | cons l ls ih =>
    simp only [List.foldl_cons]
    rw [ih]
    by_cases h : l = k
    · subst h
      rw [countIn_bump_self]
      simp [List.count_cons]
      omega
    · rw [countIn_bump_ne _ _ _ (fun hh => h hh.symm)]
      have : (l == k) = false := by simpa using h
      simp [List.count_cons, this]

/-- Key set of the dict after a bump. -/
theorem mem_keys_bumpCount (l : List (String × Nat)) (k k2 : String) :
    k2 ∈ (bumpCount l k).map Prod.fst ↔ k2 ∈ l.map Prod.fst ∨ k2 = k := by
  induction l with
  | nil => simp [bumpCount]
  | cons p rest ih =>
    obtain ⟨k0, n⟩ := p
    by_cases h0 : k0 = k
    · subst h0
      simp [bumpCount]
      tauto
    · simp only [bumpCount, beq_iff_eq, h0, if_false]
      simp [ih]
      tauto

/-- Bumping preserves distinctness of the dict's keys. -/
theorem keys_nodup_bumpCount (l : List (String × Nat)) (k : String)
    (h : (l.map Prod.fst).Nodup) : ((bumpCount l k).map Prod.fst).Nodup := by
  induction l with
  | nil => simp [bumpCount]
  | cons p rest ih =>
    obtain ⟨k0, n⟩ := p
    simp only [List.map_cons, List.nodup_cons] at h
    by_cases h0 : k0 = k
    · subst h0
      simp only [bumpCount, beq_self_eq_true, if_true]
      simp only [List.map_cons, List.nodup_cons]
      exact ⟨h.1, h.2⟩
    · simp only [bumpCount, beq_iff_eq, h0, if_false]
      simp only [List.map_cons, List.nodup_cons]
      refine ⟨?_, ih h.2⟩
      rw [mem_keys_bumpCount]
      rintro (hc | hc)
      · exact h.1 hc
      · exact h0 hc

/-- In a dict with distinct keys, a stored pair is the key's lookup. -/
theorem countIn_eq_of_mem_nodup (l : List (String × Nat)) (k : String) (n : Nat)
    (hnd : (l.map Prod.fst).Nodup) (hmem : (k, n) ∈ l) : countIn l k = n := by
  induction l with
  | nil => simp at hmem
  | cons p rest ih =>
    obtain ⟨k0, n0⟩ := p
    simp only [List.map_cons, List.nodup_cons] at hnd
    rcases List.mem_cons.mp hmem with h | h
    · injection h with h1 h2
      subst h1
      subst h2
      simp [countIn, List.find?]
    · by_cases h0 : k0 = k
      · subst h0
        exfalso
        exact hnd.1 (List.mem_map.mpr ⟨(k0, n), h, rfl⟩)
      · have hb : (k0 == k) = false := by simpa using h0
        simp only [countIn, List.find?, hb]
        exact ih hnd.2 h

/-- Every count stored by a bump is positive when the old ones were. -/
theorem pos_bumpCount (l : List (String × Nat)) (k : String)
    (h : ∀ p ∈ l, 0 < p.2) : ∀ p ∈ bumpCount l k, 0 < p.2 := by
  induction l with
  | nil =>
    intro p hp
    simp [bumpCount] at hp
    subst hp
    simp
  | cons q rest ih =>
    obtain ⟨k0, n⟩ := q
    intro p hp
    by_cases h0 : k0 = k
    · subst h0
      simp only [bumpCount, beq_self_eq_true, if_true] at hp
      rcases List.mem_cons.mp hp with hc | hc
      · subst hc
        simp
      · exact h p (List.mem_cons_of_mem _ hc)
    · simp only [bumpCount, beq_iff_eq, h0, if_false] at hp
      rcases List.mem_cons.mp hp with hc | hc
      · subst hc
        exact h (k0, n) (List.mem_cons_self ..)
      · exact ih (fun q hq => h q (List.mem_cons_of_mem _ hq)) p hc

/-- Every count stored in the folded dict is positive. -/
theorem pos_foldl_bump (labels : List String) (acc : List (String × Nat))
    (h : ∀ p ∈ acc, 0 < p.2) : ∀ p ∈ labels.foldl bumpCount acc, 0 < p.2 := by
  induction labels generalizing acc with
  | nil => exact h
  | cons l ls ih => exact ih (bumpCount acc l) (pos_bumpCount acc l h)

/-- The folded dict has distinct keys. -/
theorem keys_nodup_foldl_bump (labels : List String) (acc : List (String × Nat))
    (h : (acc.map Prod.fst).Nodup) : ((labels.foldl bumpCount acc).map Prod.fst).Nodup := by
  induction labels generalizing acc with
  | nil => exact h
  | cons l ls ih => exact ih (bumpCount acc l) (keys_nodup_bumpCount acc l h)

/-- Folding never drops an existing key of the dict. -/
theorem mem_keys_foldl_bump_of_mem_acc (labels : List String) (acc : List (String × Nat))
    (k : String) (h : k ∈ acc.map Prod.fst) :
    k ∈ (labels.foldl bumpCount acc).map Prod.fst := by
  induction labels generalizing acc with
  | nil => exact h
  | cons l ls ih =>
    exact ih (bumpCount acc l) ((mem_keys_bumpCount acc l k).mpr (Or.inl h))

/-- Every folded label becomes a key of the dict. -/
theorem mem_keys_foldl_bump (labels : List String) (acc : List (String × Nat))
    (k : String) (h : k ∈ labels) :
    k ∈ (labels.foldl bumpCount acc).map Prod.fst := by
  induction labels generalizing acc with
  | nil => simp at h
  | cons l ls ih =>
    rcases List.mem_cons.mp h with hc | hc
    · subst hc
      exact mem_keys_foldl_bump_of_mem_acc ls (bumpCount acc k) k
        ((mem_keys_bumpCount acc k k).mpr (Or.inr rfl))
    · exact ih (bumpCount acc l) hc

/-- The label multiplicity produced by the out-tanks scan equals the
specification-side tank count. -/
theorem count_outLabels (db : DB) (e : String) :
    (outLabels db).count e = outDispatchLabelCount db e := by
  unfold outLabels outDispatchLabelCount
  rw [List.count_filterMap, List.countP_filter]
  congr 1
  funext t
  cases hlm : lastMovement db.movements t.serial with
  | none => simp
  | some m =>
    by_cases hd : (m.movement_type == "dispatch") = true
    · simp [hd, Bool.and_comm]
    · simp [hd, Bool.eq_false_iff.mpr hd]

/-- C6: the summary lists exactly the engineers of the latest dispatches of
currently-out tanks: each listed pair carries the positive number of such
tanks for its engineer label, every engineer with at least one such tank
is listed with that count (out tanks whose most recent movement is not a
dispatch contribute nowhere), and the rows are sorted by count descending
then engineer ascending. -/
theorem C6_summary_by_engineer (db : DB) :
    (∀ p ∈ summary_current_out_by_engineer db,
      p.2 = outDispatchLabelCount db p.1 ∧ 0 < p.2) ∧
    (∀ e, 0 < outDispatchLabelCount db e →
      (e, outDispatchLabelCount db e) ∈ summary_current_out_by_engineer db) ∧
    List.Sorted summaryOrder (summary_current_out_by_engineer db) := by
  have hperm := List.perm_insertionSort summaryOrder ((outLabels db).foldl bumpCount [])
  have hnd := keys_nodup_foldl_bump (outLabels db) [] (by simp)
  refine ⟨?_, ?_, ?_⟩
  · intro p hp
    unfold summary_current_out_by_engineer at hp
    have hp2 : p ∈ (outLabels db).foldl bumpCount [] := hperm.mem_iff.mp hp
    obtain ⟨k, n⟩ := p
    have h1 : countIn ((outLabels db).foldl bumpCount []) k = n :=
      countIn_eq_of_mem_nodup _ _ _ hnd hp2
    have h2 := countIn_foldl (outLabels db) [] k
    have h3 := count_outLabels db k
    constructor
    · dsimp only
      have h0 : countIn [] k = 0 := rfl
      omega
    · exact pos_foldl_bump (outLabels db) [] (by simp) (k, n) hp2
  · intro e he
    have hcnt : 0 < (outLabels db).count e := by
      rw [count_outLabels]
      exact he
    have hm : e ∈ outLabels db := List.count_pos_iff.mp hcnt
    have hkey := mem_keys_foldl_bump (outLabels db) [] e hm
    obtain ⟨p, hp, hpe⟩ := List.mem_map.mp hkey
    obtain ⟨k, n⟩ := p
    dsimp only at hpe
    subst hpe
    have h1 : countIn ((outLabels db).foldl bumpCount []) k = n :=
      countIn_eq_of_mem_nodup _ _ _ hnd hp
    have h2 := countIn_foldl (outLabels db) [] k
    have h3 := count_outLabels db k
    have h0 : countIn [] k = 0 := rfl
    have hn : outDispatchLabelCount db k = n := by omega
    rw [← hn] at hp
    unfold summary_current_out_by_engineer
    exact hperm.mem_iff.mpr hp
  · exact List.sorted_insertionSort summaryOrder _

/-- Witness for C6 at a concrete store with one dispatched tank. -/
theorem C6_summary_by_engineer_witness :
    ("J", outDispatchLabelCount
        ((record_movement (seed_tanks emptyDB ["T1"]) 10 "T1" "dispatch" 10
          (some "P") (some "J") (some "A") (some "00001")).1) "J") ∈
      summary_current_out_by_engineer
        ((record_movement (seed_tanks emptyDB ["T1"]) 10 "T1" "dispatch" 10
          (some "P") (some "J") (some "A") (some "00001")).1) :=
  (C6_summary_by_engineer
    ((record_movement (seed_tanks emptyDB ["T1"]) 10 "T1" "dispatch" 10
      (some "P") (some "J") (some "A") (some "00001")).1)).2.1 "J" (by decide)

/-- An element produced by the running-maximum fold is the accumulator or a
list element. -/
theorem pickMax_mem (l : List Movement) (acc : Option Movement) (b : Movement)
    (h : l.foldl pickMax acc = some b) : acc = some b ∨ b ∈ l := by
  induction l generalizing acc with
  | nil => exact Or.inl h
  | cons m rest ih =>
    simp only [List.foldl_cons] at h
    rcases ih (pickMax acc m) h with hc | hc
    · cases acc with
      | none =>
        simp only [pickMax] at hc
        injection hc with hc
        subst hc
        exact Or.inr (List.mem_cons_self ..)
      | some a =>
        simp only [pickMax] at hc
        split at hc
        · injection hc with hc
          subst hc
          exact Or.inr (List.mem_cons_self ..)
        · injection hc with hc
          subst hc
          exact Or.inl rfl
    · exact Or.inr (List.mem_cons_of_mem _ hc)

/-- A most recent movement is a stored movement of that tank. -/
theorem lastMovement_some_mem (movs : List Movement) (s : String) (m : Movement)
    (h : lastMovement movs s = some m) : m ∈ movs ∧ m.serial = s := by
  unfold lastMovement at h
  rcases pickMax_mem _ _ _ h with hc | hc
  · cases hc
  · have := List.mem_filter.mp hc
    exact ⟨this.1, by simpa using this.2⟩

/-- Appending another tank's movement does not change a tank's most recent
movement. -/
theorem lastMovement_append_ne (movs : List Movement) (mv : Movement) (s : String)
    (h : (mv.serial == s) = false) :
    lastMovement (movs ++ [mv]) s = lastMovement movs s := by
  unfold lastMovement movementsFor
  rw [List.filter_append]
  simp [List.filter, h]

/-- Appending a movement that is strictly more recent than the tank's whole
history makes it the most recent one. -/
theorem lastMovement_append_max (movs : List Movement) (mv : Movement) (s : String)
    (hs : (mv.serial == s) = true)
    (hmax : ∀ x ∈ movementsFor movs s, moreRecent mv x = true) :
    lastMovement (movs ++ [mv]) s = some mv := by
  unfold lastMovement
  have hfil : movementsFor (movs ++ [mv]) s = movementsFor movs s ++ [mv] := by
    unfold movementsFor
    rw [List.filter_append]
    simp [List.filter, hs]
  rw [hfil, List.foldl_append]
  cases hacc : (movementsFor movs s).foldl pickMax none with
  | none => simp [pickMax]
  | some b =>
    have hb : b ∈ movementsFor movs s := by
      rcases pickMax_mem _ _ _ hacc with hc | hc
      · cases hc
      · exact hc
    simp [pickMax, hmax b hb]

/-- The two tank-column writes of `create_movement` preserve which serials
resolve to a tank. -/
theorem findTank_sets_isSome (db : DB) (serial ns : String) (d : Nat) (x : String) :
    (findTank (setTankLastDate (setTankStatus db serial ns) serial d) x).isSome =
      (findTank db x).isSome := by
  have hf1 : ∀ t2 : Tank,
      ((fun t2 => if t2.serial == serial then { t2 with status := ns } else t2) t2).serial
        = t2.serial := by
    intro t2
    dsimp only
    split <;> rfl
  have hf2 : ∀ t2 : Tank,
      ((fun t2 => if t2.serial == serial then { t2 with last_movement_date := some d } else t2) t2).serial
        = t2.serial := by
    intro t2
    dsimp only
    split <;> rfl
  unfold setTankStatus setTankLastDate
  rw [findTank_map_pres _ _ hf2, findTank_map_pres _ _ hf1]
  simp

/-- Appending tank rows preserves which serials resolve to a tank. -/
theorem findTank_append_isSome (db : DB) (ts : List Tank) (x : String)
    (h : (findTank db x).isSome = true) :
    (findTank { db with tanks := db.tanks ++ ts } x).isSome = true := by
  unfold findTank at h ⊢
  rw [List.find?_append]
  simp_all

/-- A failed `record_movement` returns the pre-call store. -/
theorem record_movement_error_state (db : DB) (today : Nat) (serial movement_type : String)
    (movement_date : Nat) (project engineer contractor smt_number : Option String)
    (e : DBError)
    (h : (record_movement db today serial movement_type movement_date
        project engineer contractor smt_number).2 = .error e) :
    (record_movement db today serial movement_type movement_date
        project engineer contractor smt_number).1 = db := by
  unfold record_movement at h ⊢
  split at h
  · simp_all
  · rfl

/-- Shape of a successful `record_movement`: the tank existed, the checks
passed, the returned movement takes the next id and the `or None`-ed
fields, and the post-state is the pre-state with that tank's two columns
written, the movement appended, and the counter advanced. -/
theorem record_success_shape (db : DB) (today : Nat) (serial movement_type : String)
    (movement_date : Nat) (project engineer contractor smt_number : Option String)
    (m : Movement)
    (h : (record_movement db today serial movement_type movement_date
        project engineer contractor smt_number).2 = .ok m) :
    ∃ tank ns smt0, findTank db serial = some tank ∧
      validate_smt_required_5_digits smt_number = some smt0 ∧
      ((movement_type = "dispatch" ∧ ns = "out") ∨ (movement_type = "receipt" ∧ ns = "in")) ∧
      m = Movement.mk db.next_id serial movement_type movement_date
        (orNone project) (orNone engineer) (orNone contractor) (some smt0) ∧
      (record_movement db today serial movement_type movement_date
        project engineer contractor smt_number).1 =
        DB.mk (setTankLastDate (setTankStatus db serial ns) serial movement_date).tanks
          (db.movements ++ [m]) (db.next_id + 1) := by
  unfold record_movement at h ⊢
  split at h
  case h_2 => simp_all
  case h_1 db1 mv heq =>
    simp only at h
    cases h
    unfold create_movement_session at heq
    split at heq
    · exact absurd heq (by simp)
    case h_2 tank hft =>
      split at heq
      · exact absurd heq (by simp)
      case isFalse hdl =>
        split at heq
        · exact absurd heq (by simp)
        case h_2 smt0 hsv =>
          split at heq
          case isTrue hdisp =>
            split at heq
            · exact absurd heq (by simp)
            case isFalse hout =>
              split at heq
              · exact absurd heq (by simp)
              case isFalse hfield =>
                simp only [addMovement, Except.ok.injEq, Prod.mk.injEq] at heq
                obtain ⟨hdb, hmv⟩ := heq
                subst hmv
                subst hdb
                exact ⟨tank, "out", smt0, hft, hsv, Or.inl ⟨by simpa using hdisp, rfl⟩, rfl, rfl⟩
          case isFalse hdisp =>
            split at heq
            case isTrue hrec =>
              split at heq
              · exact absurd heq (by simp)
              case isFalse hin =>
                simp only [addMovement, Except.ok.injEq, Prod.mk.injEq] at heq
                obtain ⟨hdb, hmv⟩ := heq
                subst hmv
                subst hdb
                exact ⟨tank, "in", smt0, hft, hsv, Or.inr ⟨by simpa using hrec, rfl⟩, rfl, rfl⟩
            case isFalse hrec =>
              exact absurd heq (by simp)

/-- Unfolding of the run invariant into its three propositional parts. -/
theorem ledgerInv_iff (db : DB) : ledgerInv db = true ↔
    (∀ m ∈ db.movements, m.id < db.next_id) ∧
    (∀ m ∈ db.movements, (findTank db m.serial).isSome = true) ∧
    (∀ t ∈ db.tanks, tankConsistent db.movements t = true) := by
  simp [ledgerInv, wellFormed, statusInvariant, List.all_eq_true]
  tauto

/-- Seeding preserves the run invariant: new tanks start `in` and, by
well-formedness, have no stored movements. -/
theorem seed_inv (db : DB) (ss : List String) (h : ledgerInv db = true) :
    ledgerInv (seed_tanks db ss) = true := by
  induction ss generalizing db with
  | nil => exact h
  | cons s rest ih =>
    have hcons : seed_tanks db (s :: rest) =
        seed_tanks (if (findTank db s).isSome then db
          else { db with tanks := db.tanks ++ [{ serial := s, status := "in", last_movement_date := none }] }) rest := by
      simp [seed_tanks]
    rw [hcons]
    apply ih
    by_cases hf : (findTank db s).isSome = true
    · simpa [hf] using h
    · rw [if_neg hf]
      rw [ledgerInv_iff] at h ⊢
      obtain ⟨h1, h2, h3⟩ := h
      refine ⟨h1, ?_, ?_⟩
      · intro m hm
        exact findTank_append_isSome db _ _ (h2 m hm)
      · intro t ht
        simp only [] at ht
        rcases List.mem_append.mp ht with hc | hc
        · exact h3 t hc
        · have ht0 : t = { serial := s, status := "in", last_movement_date := none } := by
            simpa using hc
          subst ht0
          unfold tankConsistent
          cases hlm : lastMovement db.movements s with
          | none => rfl
          | some m =>
            exfalso
            obtain ⟨hmem, hser⟩ := lastMovement_some_mem db.movements s m hlm
            apply hf
            rw [← hser]
            exact h2 m hmem

/-- Repairing keeps (or establishes) a tank's consistency. -/
theorem tankConsistent_repairTank (movs : List Movement) (t : Tank)
    (h : tankConsistent movs t = true) :
    tankConsistent movs (repairTank movs t) = true := by
  unfold tankConsistent at h ⊢
  rw [repairTank_serial]
  cases hlm : lastMovement movs t.serial with
  | none =>
    unfold repairTank
    rw [hlm]
    rw [hlm] at h
    exact h
  | some m =>
    unfold repairTank
    rw [hlm]
    simp

/-- The repair pass preserves the run invariant. -/
theorem recompute_inv (db : DB) (h : ledgerInv db = true) :
    ledgerInv (recompute_tank_states_from_history db).1 = true := by
  rw [ledgerInv_iff] at h ⊢
  obtain ⟨h1, h2, h3⟩ := h
  unfold recompute_tank_states_from_history
  refine ⟨h1, ?_, ?_⟩
  · intro m hm
    rw [findTank_map_pres _ _ (repairTank_serial db.movements)]
    simpa using h2 m hm
  · intro t2 ht2
    obtain ⟨t, ht, rfl⟩ := List.mem_map.mp ht2
    exact tankConsistent_repairTank db.movements t (h3 t ht)

/-- A non-backdated `record_movement` preserves the run invariant. -/
theorem record_inv (db : DB) (today : Nat) (serial movement_type : String)
    (movement_date : Nat) (project engineer contractor smt_number : Option String)
    (h : ledgerInv db = true) (hnb : noBackdate db serial movement_date = true) :
    ledgerInv (record_movement db today serial movement_type movement_date
      project engineer contractor smt_number).1 = true := by
  cases hres : (record_movement db today serial movement_type movement_date
      project engineer contractor smt_number).2 with
  | error err =>
    rw [record_movement_error_state db today serial movement_type movement_date
      project engineer contractor smt_number err hres]
    exact h
  | ok m =>
    obtain ⟨tank, ns, smt0, hft, hsv, hns, hm, hdb⟩ :=
      record_success_shape db today serial movement_type movement_date
        project engineer contractor smt_number m hres
    rw [hdb]
    rw [ledgerInv_iff] at h
    obtain ⟨h1, h2, h3⟩ := h
    rw [ledgerInv_iff]
    have hnb2 : ∀ x ∈ movementsFor db.movements serial, x.movement_date ≤ movement_date := by
      intro x hx
      have := (List.all_eq_true.mp hnb) x hx
      simpa using this
    refine ⟨?_, ?_, ?_⟩
    · intro mm hmm
      simp only [] at hmm
      show mm.id < db.next_id + 1
      rcases List.mem_append.mp hmm with hc | hc
      · have := h1 mm hc
        omega
      · have : mm = m := by simpa using hc
        subst this
        rw [hm]
        simp
    · intro mm hmm
      have heq : findTank (DB.mk (setTankLastDate (setTankStatus db serial ns) serial movement_date).tanks
          (db.movements ++ [m]) (db.next_id + 1)) mm.serial =
          findTank (setTankLastDate (setTankStatus db serial ns) serial movement_date) mm.serial := rfl
      rw [heq, findTank_sets_isSome]
      rcases List.mem_append.mp hmm with hc | hc
      · exact h2 mm hc
      · have : mm = m := by simpa using hc
        subst this
        rw [hm]
        simp only []
        rw [hft]
        rfl
    · intro t2 ht2
      simp only [setTankLastDate, setTankStatus, List.map_map] at ht2
      obtain ⟨t, ht, rfl⟩ := List.mem_map.mp ht2
      simp only [Function.comp]
      by_cases hts : (t.serial == serial) = true
      · rw [if_pos hts]
        have hser : ({ t with status := ns }).serial = t.serial := rfl
        rw [hser] at *
        rw [if_pos hts]
        unfold tankConsistent
        have hlast : lastMovement (db.movements ++ [m]) t.serial = some m := by
          apply lastMovement_append_max
          · rw [hm]
            simpa using (by simpa using hts : t.serial = serial).symm
          · intro x hx
            have hd : x.movement_date ≤ movement_date := by
              have hx2 : x ∈ movementsFor db.movements serial := by
                rw [← (by simpa using hts : t.serial = serial)]
                exact hx
              exact hnb2 x hx2
            have hid : x.id < db.next_id := h1 x (List.mem_filter.mp hx).1
            rw [hm]
            simp only [moreRecent]
            simp
            omega
        simp only []
        rw [hlast]
        rcases hns with ⟨hmt, hns⟩ | ⟨hmt, hns⟩
        · subst hmt
          subst hns
          rw [hm]
          simp
        · subst hmt
          subst hns
          rw [hm]
          simp
      · rw [if_neg hts]
        rw [if_neg hts]
        unfold tankConsistent
        have hlast : lastMovement (db.movements ++ [m]) t.serial = lastMovement db.movements t.serial := by
          apply lastMovement_append_ne
          rw [hm]
          simp only []
          simpa using fun hh => hts (by simpa using hh.symm)
        rw [hlast]
        have := h3 t ht
        unfold tankConsistent at this
        exact this

/-- The run invariant holds along every admissible run. -/
theorem run_inv (ops : List Op) (db : DB) (hdb : ledgerInv db = true)
    (h : admissibleRun db ops = true) : ledgerInv (runOps db ops) = true := by
  induction ops generalizing db with
  | nil => exact hdb
  | cons op rest ih =>
    simp only [admissibleRun, Bool.and_eq_true] at h
    obtain ⟨hop, hrest⟩ := h
    simp only [runOps, List.foldl_cons]
    apply ih (applyOp db op) ?_ hrest
    cases op with
    | seed ss => exact seed_inv db ss hdb
    | record today serial mt mdate p e c smt =>
      exact record_inv db today serial mt mdate p e c smt hdb (by simpa [admissibleOp] using hop)
    | recompute => exact recompute_inv db hdb

/-- C1 counterexample: the invariant as claimed is violated at a state
reachable through the public operations alone.  Dispatch a seeded tank at
date 10, then record its receipt backdated to date 5: the receipt sets
the status to `in`, but the most recent movement by the (date desc, id
desc) ordering is still the dispatch at date 10. -/
theorem C1_status_invariant_counterexample :
    statusInvariant (runOps emptyDB
      [Op.seed ["T1"],
       Op.record 10 "T1" "dispatch" 10 (some "P") (some "J") (some "A") (some "00001"),
       Op.record 10 "T1" "receipt" 5 none none none (some "00002")]) = false := by
  decide

/-- C1 amended: the status invariant (`out` iff the most recent movement is
a dispatch, `in` otherwise or with no movements, for every tank) holds at
every state reachable through the public operations in which no recorded
movement is backdated, i.e. each successful recording carries a date not
earlier than every movement already stored for that tank. -/
theorem C1_status_invariant_no_backdate (ops : List Op)
    (h : admissibleRun emptyDB ops = true) :
    statusInvariant (runOps emptyDB ops) = true := by
  have hinv := run_inv ops emptyDB (by decide) h
  simp only [ledgerInv, Bool.and_eq_true] at hinv
  exact hinv.2

/-- Witness for C1 amended on a concrete run using all three public
operations with non-decreasing dates. -/
theorem C1_status_invariant_no_backdate_witness :
    admissibleRun emptyDB
      [Op.seed ["T1", "T2"],
       Op.record 10 "T1" "dispatch" 10 (some "P") (some "J") (some "A") (some "00001"),
       Op.record 12 "T1" "receipt" 12 none none none (some "00002"),
       Op.recompute] = true ∧
    statusInvariant (runOps emptyDB
      [Op.seed ["T1", "T2"],
       Op.record 10 "T1" "dispatch" 10 (some "P") (some "J") (some "A") (some "00001"),
       Op.record 12 "T1" "receipt" 12 none none none (some "00002"),
       Op.recompute]) = true :=
  ⟨by decide, C1_status_invariant_no_backdate _ (by decide)⟩

end Nitrogeno
